import Mathlib

/-!
Shallow embedding of the playback-progress synchronization engine of
`src/app/page.tsx` (YouTubeCoursePlayer): the chapter-resolution loop of
`trackProgress`, the progress-store updates of `trackProgress` and
`markChapterCompleted`, the read operation `getVideoProgress`, and the
localStorage load step (`JSON.parse` on the saved value).

Conventions of the embedding:
- JS numbers holding integer data (chapter indices, watch time, Date.now()
  timestamps) are `Nat` / `Int`; the player clock `getCurrentTime()` is `ℚ`.
- The stored percentage `Math.round((len / count) * 100)` is modelled with
  exact IEEE-754 binary64 semantics: the division and the multiplication are
  each correctly rounded (round to nearest, ties to even) over dyadic
  rationals, and `Math.round` then takes the nearest integer with ties toward
  positive infinity; a JS division by zero is kept visible through `JsNum`
  (`NaN` / `Infinity` instead of a finite number).
- A JS object used as a string-keyed map is an association list with the
  first binding of a key authoritative, and spread-update (`{...prev,
  [videoId]: v}`) replacing in place or appending.
- JS string truthiness: the empty string is falsy (`if (!videoId) return`).
-/

namespace CourseMaker

/-- A JS number as produced by `Math.round((len / count) * 100)`: a finite
natural number, `NaN` (from `0 / 0`) or `Infinity` (from `len / 0`, `len > 0`). -/
inductive JsNum where
  | num : Nat → JsNum
  | nan : JsNum
  | inf : JsNum
deriving DecidableEq, Repr

/-- The per-video record of `ProgressData` in `page.tsx` (field names as in the
source): `completedChapters`, `lastWatchedChapter` (-1 = none),
`progressPercentage`, `totalWatchTime`, `timestamp` (Date.now()). -/
structure VideoProgress where
  completedChapters : List Nat
  lastWatchedChapter : Int
  progressPercentage : JsNum
  totalWatchTime : Nat
  timestamp : Nat
deriving DecidableEq, Repr

/-- The `ProgressData` type: the JS object mapping video ids to progress records. -/
abbrev ProgressData := List (String × VideoProgress)

/-- JS object key lookup `prev[videoId]`: first binding wins. -/
def lookupProg : ProgressData → String → Option VideoProgress
  | [], _ => none
  | (k, v) :: rest, id => if k = id then some v else lookupProg rest id

/-- JS spread update `{...prev, [videoId]: v}`: replace the binding of the key
in place if present, append otherwise. -/
def setProg : ProgressData → String → VideoProgress → ProgressData
  | [], id, v => [(id, v)]
  | (k, w) :: rest, id, v =>
    if k = id then (k, v) :: rest else (k, w) :: setProg rest id v

/-- The default record `{ completedChapters: [], lastWatchedChapter: -1,
progressPercentage: 0, totalWatchTime: 0, timestamp: Date.now() }` used by both
mutations when `prev[videoId]` is absent. -/
def defaultProgress (now : Nat) : VideoProgress :=
  { completedChapters := []
    lastWatchedChapter := -1
    progressPercentage := JsNum.num 0
    totalWatchTime := 0
    timestamp := now }

/-- Fuel-driven floor of the base-2 logarithm, written structurally so that
witnesses evaluate inside the kernel; the fuel `n` itself is enough since the
argument halves at each step. -/
def natLog2F : Nat → Nat → Nat
  | 0, _ => 0
  | fuel + 1, n => if n < 2 then 0 else natLog2F fuel (n / 2) + 1

/-- Floor of the base-2 logarithm of a natural number (`⌊log₂ n⌋` for `n ≥ 1`). -/
def natLog2 (n : Nat) : Nat := natLog2F n n

/-- Floor of the base-2 logarithm of the positive rational `n / d`: the unique
`e` with `2 ^ e ≤ n / d < 2 ^ (e + 1)` (for `n, d ≥ 1`). -/
def ilog2ND (n d : Nat) : Int :=
  let a := natLog2 n
  let b := natLog2 d
  if b ≤ a then
    if 2 ^ (a - b) * d ≤ n then Int.ofNat (a - b) else Int.ofNat (a - b) - 1
  else
    if d ≤ n * 2 ^ (b - a) then -Int.ofNat (b - a) else -Int.ofNat (b - a) - 1

/-- Nearest integer to the nonnegative rational `n / d` (for `d ≥ 1`), ties to
even: the IEEE-754 round-to-nearest rule applied to a scaled significand. -/
def roundTiesEvenND (n d : Nat) : Nat :=
  let q := n / d
  let r2 := 2 * (n % d)
  if r2 < d then q else if d < r2 then q + 1 else if q % 2 = 0 then q else q + 1

/-- Round the nonnegative rational `n / d` (for `d ≥ 1`) to the nearest
IEEE-754 binary64 value (round to nearest, ties to even), as a dyadic pair
`(m, s)` whose value is `m * 2 ^ s`. `none` is overflow to `Infinity`;
gradual underflow to subnormals (fixed scale `2 ^ (-1074)`) and to 0 is
modelled. -/
def fpRoundND (n d : Nat) : Option (Nat × Int) :=
  if n = 0 then some (0, 0)
  else
    let e := ilog2ND n d
    if e < -1022 then some (roundTiesEvenND (n * 2 ^ 1074) d, -1074)
    else
      let k : Int := 52 - e
      let m := if 0 ≤ k then roundTiesEvenND (n * 2 ^ k.toNat) d
               else roundTiesEvenND n (d * 2 ^ (-k).toNat)
      let m2 := if m = 2 ^ 53 then 2 ^ 52 else m
      let e2 := if m = 2 ^ 53 then e + 1 else e
      if 1023 < e2 then none else some (m2, e2 - 52)

/-- Round-half-up of the nonnegative rational `n / d` (ties toward positive
infinity): the exact integer result of `Math.round` on a nonnegative value. -/
def roundHalfUpND (n d : Nat) : Nat := (2 * n + d) / (2 * d)

/-- Embedding of `Math.round((len / count) * 100)` with exact IEEE-754
binary64 semantics: the division `len / count` and the product `· * 100` are
each rounded to the nearest double (ties to even), and `Math.round` then takes
the nearest integer with ties toward positive infinity; `len` and `count` are
JS array lengths, hence exact doubles. For `count = 0` JS produces `NaN`
(when `len = 0`) or `Infinity` (when `len > 0`). The result can differ from
exact rounding of `100 * len / count`: at `len = 23, count = 40` the double
product is just below `57.5`, so the stored value is 57 where exact rounding
gives 58. -/
def jsRoundPct (len count : Nat) : JsNum :=
  if count = 0 then (if len = 0 then JsNum.nan else JsNum.inf)
  else
    match fpRoundND len count with
    | none => JsNum.inf
    | some (m1, s1) =>
      match (if 0 ≤ s1 then fpRoundND (m1 * 100 * 2 ^ s1.toNat) 1
             else fpRoundND (m1 * 100) (2 ^ (-s1).toNat)) with
      | none => JsNum.inf
      | some (m2, s2) =>
        JsNum.num (if 0 ≤ s2 then m2 * 2 ^ s2.toNat
                   else roundHalfUpND m2 (2 ^ (-s2).toNat))

/-- Fuel-driven worker for `jsSetDedup`; the fuel is an upper bound on the
list length, so `jsSetDedup` below never runs out. -/
def jsSetDedupF : Nat → List Nat → List Nat
  | 0, _ => []
  | fuel + 1, l =>
    match l with
    | [] => []
    | a :: rest => a :: jsSetDedupF fuel (rest.filter (fun x => x ≠ a))

/-- Embedding of `[...new Set(l)]`: deduplicate keeping the first occurrence of each
element, preserving order. -/
def jsSetDedup (l : List Nat) : List Nat :=
  jsSetDedupF l.length l

/-- The chapter-resolution loop of `trackProgress`, scanning index `i`
downwards: `for (let i = chapters.length - 1; i >= 0; i--) if (currentTime >=
chapters[i].timestamp) { newCurrentChapter = i; break; }` with initial value 0.
(`goResolve ts t 0` returns 0 directly: at index 0 the loop either keeps the
initial 0 or assigns 0, the same result.) -/
def goResolve (ts : List Nat) (t : ℚ) : Nat → Nat
  | 0 => 0
  | i + 1 => if ((ts.getD (i + 1) 0 : Nat) : ℚ) ≤ t then i + 1 else goResolve ts t i

/-- The resolved current chapter for clock position `t`: the loop above started
at the last index. Only invoked with a non-empty chapter list (the
`chapters.length === 0` guard fires first). -/
def resolveChapter (ts : List Nat) (t : ℚ) : Nat :=
  goResolve ts t (ts.length - 1)

/-- The tracker state touched by one `trackProgress` sample: the React states
`currentChapter` and `progress`. -/
structure TrackState where
  currentChapter : Nat
  progress : ProgressData
deriving DecidableEq, Repr

/-- One `trackProgress` sample. `player` is `getCurrentTime()` when
`playerRef.current` is non-null, `none` otherwise (the sample is a no-op);
`ts` is the chapter timestamp list; `now` is `Date.now()`. On a strict
forward advance the store entry for `videoId` is rebuilt: completed chapters
become `[...new Set([...old, ...Array.from({length: newCur}, (_, i) => i)])]`,
`lastWatchedChapter := newCur`, the percentage is recomputed,
`totalWatchTime` is incremented by 1 and the timestamp stamped; on a backward
move only `currentChapter` changes. -/
def trackProgress (player : Option ℚ) (ts : List Nat) (videoId : String)
    (now : Nat) (s : TrackState) : TrackState :=
  match player with
  | none => s
  | some currentTime =>
    if ts.length = 0 then s
    else
      let newCur := resolveChapter ts currentTime
      if newCur = s.currentChapter then s
      else if s.currentChapter < newCur then
        let vp := (lookupProg s.progress videoId).getD (defaultProgress now)
        let newCompleted := jsSetDedup (vp.completedChapters ++ List.range newCur)
        { currentChapter := newCur
          progress := setProg s.progress videoId
            { completedChapters := newCompleted
              lastWatchedChapter := (newCur : Int)
              progressPercentage := jsRoundPct newCompleted.length ts.length
              totalWatchTime := vp.totalWatchTime + 1
              timestamp := now } }
      else { s with currentChapter := newCur }

/-- Embedding of `markChapterCompleted(chapterIndex)`: no-op when `videoId` is falsy
(empty string); otherwise flips membership of `chapterIndex` (filter out if
present, push if absent), sets `lastWatchedChapter`, recomputes the percentage
from `chapters.length` (no guard against zero chapters, no bounds check on the
index) and stamps the timestamp; `totalWatchTime` is carried over by the
record spread. -/
def markChapterCompleted (ts : List Nat) (videoId : String) (chapterIndex : Nat)
    (now : Nat) (p : ProgressData) : ProgressData :=
  if videoId = "" then p
  else
    let vp := (lookupProg p videoId).getD (defaultProgress now)
    let isCompleted := chapterIndex ∈ vp.completedChapters
    let newCompleted :=
      if isCompleted then vp.completedChapters.filter (fun idx => idx ≠ chapterIndex)
      else vp.completedChapters ++ [chapterIndex]
    setProg p videoId
      { vp with
        completedChapters := newCompleted
        lastWatchedChapter := (chapterIndex : Int)
        progressPercentage := jsRoundPct newCompleted.length ts.length
        timestamp := now }

/-- Embedding of `getVideoProgress()`: `null` when `videoId` is falsy or the key is absent,
the stored record otherwise. -/
def getVideoProgress (videoId : String) (p : ProgressData) : Option VideoProgress :=
  if videoId = "" then none else lookupProg p videoId

/-! ### The localStorage load step and `JSON.parse`

`page.tsx` loads the store with
`const savedProgress = localStorage.getItem('youtube-course-progress');
 if (savedProgress) { setProgress(JSON.parse(savedProgress)); }`
with no `try`/`catch`: a `SyntaxError` thrown by `JSON.parse` propagates.
`JSON.parse` is modelled by an executable parser of the JSON grammar
(ECMA-404: values, objects, arrays, strings with escapes, numbers,
whitespace); the parsed value is stored as-is (the source casts it, it does
not decode it). -/

/-- A parsed JSON value. Number lexemes are kept verbatim. -/
inductive Json where
  | jnull : Json
  | jbool : Bool → Json
  | jnum : String → Json
  | jstr : String → Json
  | jarr : List Json → Json
  | jobj : List (String × Json) → Json
deriving Repr

/-- JSON insignificant whitespace. -/
def isWsChar (c : Char) : Bool :=
  c = ' ' || c = '\n' || c = '\t' || c = '\r'

/-- Skip insignificant whitespace. -/
def skipWs (cs : List Char) : List Char :=
  cs.dropWhile isWsChar

/-- Hex digit, for `\u` escapes. -/
def isHexChar (c : Char) : Bool :=
  c.isDigit || ('a' ≤ c && c ≤ 'f') || ('A' ≤ c && c ≤ 'F')

/-- Body of a JSON string after the opening quote: content characters up to
the closing quote, with the escape sequences of the grammar; raw control
characters are rejected. Returns the content and the remaining input. -/
def strBody : List Char → Option (List Char × List Char)
  | [] => none
  | c :: cs =>
    if c = '"' then some ([], cs)
    else if c = '\\' then
      match cs with
      | [] => none
      | e :: cs2 =>
        if e = '"' || e = '\\' || e = '/' || e = 'b' || e = 'f' || e = 'n'
            || e = 'r' || e = 't' then
          match strBody cs2 with
          | some (s, r) => some (e :: s, r)
          | none => none
        else if e = 'u' then
          match cs2 with
          | h1 :: h2 :: h3 :: h4 :: cs3 =>
            if isHexChar h1 && isHexChar h2 && isHexChar h3 && isHexChar h4 then
              match strBody cs3 with
              | some (s, r) => some (e :: s, r)
              | none => none
            else none
          | _ => none
        else none
    else if c.toNat < 32 then none
    else
      match strBody cs with
      | some (s, r) => some (c :: s, r)
      | none => none

/-- Integer part of a JSON number: `0`, or a nonzero digit followed by digits
(no leading zeros). -/
def numIntPart : List Char → Option (List Char × List Char)
  | [] => none
  | c :: cs =>
    if c = '0' then some ([c], cs)
    else if c.isDigit then
      some (c :: cs.takeWhile Char.isDigit, cs.dropWhile Char.isDigit)
    else none

/-- Optional fraction part: `.` followed by at least one digit. -/
def numFracPart (cs : List Char) : Option (List Char × List Char) :=
  match cs with
  | '.' :: cs2 =>
    let ds := cs2.takeWhile Char.isDigit
    if ds = [] then none else some ('.' :: ds, cs2.dropWhile Char.isDigit)
  | _ => some ([], cs)

/-- Optional exponent part: `e`/`E`, optional sign, at least one digit. -/
def numExpPart (cs : List Char) : Option (List Char × List Char) :=
  match cs with
  | [] => some ([], [])
  | c :: cs2 =>
    if c = 'e' || c = 'E' then
      let sgnSplit : List Char × List Char :=
        match cs2 with
        | s :: rest => if s = '+' || s = '-' then ([s], rest) else ([], cs2)
        | [] => ([], [])
      let ds := sgnSplit.2.takeWhile Char.isDigit
      if ds = [] then none
      else some (c :: sgnSplit.1 ++ ds, sgnSplit.2.dropWhile Char.isDigit)
    else some ([], cs)

/-- A full JSON number literal at the head of the input: optional minus,
integer part, optional fraction and exponent. Returns the lexeme. -/
def numLit (cs : List Char) : Option (List Char × List Char) :=
  let sgnSplit : List Char × List Char :=
    match cs with
    | c :: rest => if c = '-' then ([c], rest) else ([], cs)
    | [] => ([], [])
  match numIntPart sgnSplit.2 with
  | none => none
  | some (ip, cs2) =>
    match numFracPart cs2 with
    | none => none
    | some (fp, cs3) =>
      match numExpPart cs3 with
      | none => none
      | some (ep, cs4) => some (sgnSplit.1 ++ ip ++ fp ++ ep, cs4)

mutual

/-- Parse one JSON value at the head of the input (after skipping whitespace).
The fuel argument bounds the recursion; every recursive call strictly consumes
input first, so fuel `length + 1` never runs out. -/
def parseVal : Nat → List Char → Option (Json × List Char)
  | 0, _ => none
  | fuel + 1, cs =>
    match skipWs cs with
    | [] => none
    | c :: cs1 =>
      if c = '"' then
        match strBody cs1 with
        | some (s, r) => some (Json.jstr (String.mk s), r)
        | none => none
      else if c = 't' then
        match cs1 with
        | 'r' :: 'u' :: 'e' :: r => some (Json.jbool true, r)
        | _ => none
      else if c = 'f' then
        match cs1 with
        | 'a' :: 'l' :: 's' :: 'e' :: r => some (Json.jbool false, r)
        | _ => none
      else if c = 'n' then
        match cs1 with
        | 'u' :: 'l' :: 'l' :: r => some (Json.jnull, r)
        | _ => none
      else if c = '\x7b' then
        match parseObjRest fuel cs1 true with
        | some (ms, r) => some (Json.jobj ms, r)
        | none => none
      else if c = '[' then
        match parseArrRest fuel cs1 true with
        | some (vs, r) => some (Json.jarr vs, r)
        | none => none
      else
        match numLit (c :: cs1) with
        | some (lex, r) => some (Json.jnum (String.mk lex), r)
        | none => none

/-- Members of an object after the opening brace (or after a comma, when
`first` is false, so an immediate closing brace is a trailing comma and
rejected). -/
def parseObjRest : Nat → List Char → Bool → Option (List (String × Json) × List Char)
  | 0, _, _ => none
  | fuel + 1, cs, first =>
    match skipWs cs with
    | [] => none
    | c :: cs1 =>
      if c = '\x7d' && first then some ([], cs1)
      else if c = '"' then
        match strBody cs1 with
        | none => none
        | some (k, cs2) =>
          match skipWs cs2 with
          | ':' :: cs3 =>
            match parseVal fuel cs3 with
            | none => none
            | some (v, cs4) =>
              match skipWs cs4 with
              | ',' :: cs5 =>
                match parseObjRest fuel cs5 false with
                | some (ms, r) => some ((String.mk k, v) :: ms, r)
                | none => none
              | '\x7d' :: cs5 => some ([(String.mk k, v)], cs5)
              | _ => none
          | _ => none
      else none

/-- Elements of an array after the opening bracket (or after a comma, when
`first` is false). -/
def parseArrRest : Nat → List Char → Bool → Option (List Json × List Char)
  | 0, _, _ => none
  | fuel + 1, cs, first =>
    match skipWs cs with
    | [] => none
    | c :: cs1 =>
      if c = ']' && first then some ([], cs1)
      else
        match parseVal fuel (c :: cs1) with
        | none => none
        | some (v, cs2) =>
          match skipWs cs2 with
          | ',' :: cs3 =>
            match parseArrRest fuel cs3 false with
            | some (vs, r) => some (v :: vs, r)
            | none => none
          | ']' :: cs3 => some ([v], cs3)
          | _ => none

end

/-- Embedding of `JSON.parse(s)`: parse one value and require only whitespace to remain;
`none` models a thrown `SyntaxError`. -/
def jsonParse (s : String) : Option Json :=
  match parseVal (s.length + 1) s.data with
  | some (j, r) => if skipWs r = [] then some j else none
  | none => none

/-- The load step of `page.tsx`: with no saved value (or the falsy empty
string) the `progress` state keeps its initial `{}`; otherwise
`JSON.parse(savedProgress)` is stored, and its `SyntaxError` on malformed
content propagates to the caller (`.error`) — there is no `try`/`catch`. -/
def loadSavedProgress (saved : Option String) : Except String Json :=
  match saved with
  | none => Except.ok (Json.jobj [])
  | some s =>
    if s = "" then Except.ok (Json.jobj [])
    else
      match jsonParse s with
      | some j => Except.ok j
      | none => Except.error "SyntaxError"

/-! ### Helper lemmas -/

/-- Looking up the key just written by a spread update yields the new record. -/
theorem lookupProg_setProg_self (p : ProgressData) (id : String) (v : VideoProgress) :
    lookupProg (setProg p id v) id = some v := by
  induction p with
  | nil => simp [setProg, lookupProg]
  | cons kv rest ih =>
    obtain ⟨k, w⟩ := kv
    by_cases h : k = id
    · simp [setProg, lookupProg, h]
    · simp [setProg, lookupProg, h, ih]

/-- A spread update of one key leaves every other key's binding unchanged. -/
theorem lookupProg_setProg_ne (p : ProgressData) (id id2 : String) (v : VideoProgress)
    (h : id2 ≠ id) : lookupProg (setProg p id v) id2 = lookupProg p id2 := by
  have hne : id ≠ id2 := fun hh => h hh.symm
  induction p with
  | nil => simp [setProg, lookupProg, hne]
  | cons kv rest ih =>
    obtain ⟨k, w⟩ := kv
    by_cases hk : k = id
    · subst hk
      simp [setProg, lookupProg, hne]
    · simp only [setProg, if_neg hk, lookupProg, ih]

/-- The fuel-driven dedup preserves membership when given enough fuel. -/
theorem mem_jsSetDedupF (fuel : Nat) :
    ∀ (l : List Nat), l.length ≤ fuel → ∀ x, x ∈ jsSetDedupF fuel l ↔ x ∈ l := by
  induction fuel with
  | zero =>
    intro l hl x
    have hnil : l = [] := List.eq_nil_of_length_eq_zero (Nat.le_zero.mp hl)
    subst hnil
    simp [jsSetDedupF]
  | succ fuel ih =>
    intro l hl x
    match l with
    | [] => simp [jsSetDedupF]
    | a :: rest =>
      have hlen : (rest.filter (fun x => x ≠ a)).length ≤ fuel :=
        le_trans (List.length_filter_le _ _) (Nat.lt_succ_iff.mp hl)
      simp only [jsSetDedupF, List.mem_cons,
        ih (rest.filter (fun x => x ≠ a)) hlen x, List.mem_filter, decide_eq_true_eq]
      constructor
      · rintro (h | ⟨h, _⟩)
        · exact Or.inl h
        · exact Or.inr h
      · rintro (h | h)
        · exact Or.inl h
        · by_cases hxa : x = a
          · exact Or.inl hxa
          · exact Or.inr ⟨h, hxa⟩

/-- Dedup preserves membership: `[...new Set(l)]` has exactly the members of `l`. -/
theorem mem_jsSetDedup (l : List Nat) (x : Nat) : x ∈ jsSetDedup l ↔ x ∈ l :=
  mem_jsSetDedupF l.length l (le_refl _) x

/-- The resolution loop never overshoots its starting index. -/
theorem goResolve_le (ts : List Nat) (t : ℚ) (i : Nat) : goResolve ts t i ≤ i := by
  induction i with
  | zero => simp [goResolve]
  | succ i ih =>
    simp only [goResolve]
    split
    · exact le_refl _
    · exact Nat.le_succ_of_le ih

/-- Maximality of the resolution loop: any index up to the start whose
timestamp is at most the clock is at most the result. -/
theorem goResolve_max (ts : List Nat) (t : ℚ) (i : Nat) :
    ∀ j, j ≤ i → ((ts.getD j 0 : Nat) : ℚ) ≤ t → j ≤ goResolve ts t i := by
  induction i with
  | zero => intro j hj _; simpa [goResolve] using hj
  | succ i ih =>
    intro j hj hcond
    simp only [goResolve]
    split
    · exact hj
    · rename_i hfail
      rcases eq_or_lt_of_le hj with h | h
      · exact absurd (h ▸ hcond) hfail
      · exact ih j (Nat.lt_succ_iff.mp h) hcond

/-- The resolution loop either keeps the initial 0 or lands on an index whose
timestamp is at most the clock. -/
theorem goResolve_hit (ts : List Nat) (t : ℚ) (i : Nat) :
    goResolve ts t i = 0 ∨ ((ts.getD (goResolve ts t i) 0 : Nat) : ℚ) ≤ t := by
  induction i with
  | zero => exact Or.inl rfl
  | succ i ih =>
    simp only [goResolve]
    split
    · rename_i hcond
      exact Or.inr hcond
    · exact ih

/-- With non-empty chapters and a strictly larger resolved index, one sample
reduces to the forward-advance store update. -/
theorem trackProgress_advance_eq (ts : List Nat) (videoId : String) (t : ℚ)
    (now : Nat) (s : TrackState)
    (hlen : ts.length ≠ 0) (hab : s.currentChapter < resolveChapter ts t) :
    trackProgress (some t) ts videoId now s =
      { currentChapter := resolveChapter ts t
        progress := setProg s.progress videoId
          { completedChapters := jsSetDedup
              (((lookupProg s.progress videoId).getD (defaultProgress now)).completedChapters
                ++ List.range (resolveChapter ts t))
            lastWatchedChapter := (resolveChapter ts t : Int)
            progressPercentage := jsRoundPct
              (jsSetDedup
                (((lookupProg s.progress videoId).getD (defaultProgress now)).completedChapters
                  ++ List.range (resolveChapter ts t))).length ts.length
            totalWatchTime :=
              ((lookupProg s.progress videoId).getD (defaultProgress now)).totalWatchTime + 1
            timestamp := now } } := by
  simp only [trackProgress]
  rw [if_neg hlen, if_neg (show ¬ resolveChapter ts t = s.currentChapter by omega),
    if_pos hab]

/-- With non-empty chapters and a strictly smaller resolved index, one sample
only moves the visible current chapter. -/
theorem trackProgress_backward_eq (ts : List Nat) (videoId : String) (t : ℚ)
    (now : Nat) (s : TrackState)
    (hlen : ts.length ≠ 0) (hlt : resolveChapter ts t < s.currentChapter) :
    trackProgress (some t) ts videoId now s =
      { s with currentChapter := resolveChapter ts t } := by
  simp only [trackProgress]
  rw [if_neg hlen, if_neg (show ¬ resolveChapter ts t = s.currentChapter by omega),
    if_neg (show ¬ s.currentChapter < resolveChapter ts t by omega)]

/-- The toggle on an already-completed index reduces to the filter update. -/
theorem markChapterCompleted_eq_of_mem (ts : List Nat) (videoId : String)
    (idx now : Nat) (p : ProgressData) (hid : videoId ≠ "")
    (hc : idx ∈ ((lookupProg p videoId).getD (defaultProgress now)).completedChapters) :
    markChapterCompleted ts videoId idx now p =
      setProg p videoId
        { completedChapters :=
            ((lookupProg p videoId).getD (defaultProgress now)).completedChapters.filter
              (fun i => i ≠ idx)
          lastWatchedChapter := (idx : Int)
          progressPercentage := jsRoundPct
            (((lookupProg p videoId).getD (defaultProgress now)).completedChapters.filter
              (fun i => i ≠ idx)).length ts.length
          totalWatchTime := ((lookupProg p videoId).getD (defaultProgress now)).totalWatchTime
          timestamp := now } := by
  simp only [markChapterCompleted, if_neg hid, hc, if_true]

/-- The toggle on a not-yet-completed index reduces to the push update. -/
theorem markChapterCompleted_eq_of_not_mem (ts : List Nat) (videoId : String)
    (idx now : Nat) (p : ProgressData) (hid : videoId ≠ "")
    (hc : idx ∉ ((lookupProg p videoId).getD (defaultProgress now)).completedChapters) :
    markChapterCompleted ts videoId idx now p =
      setProg p videoId
        { completedChapters :=
            ((lookupProg p videoId).getD (defaultProgress now)).completedChapters ++ [idx]
          lastWatchedChapter := (idx : Int)
          progressPercentage := jsRoundPct
            (((lookupProg p videoId).getD (defaultProgress now)).completedChapters
              ++ [idx]).length ts.length
          totalWatchTime := ((lookupProg p videoId).getD (defaultProgress now)).totalWatchTime
          timestamp := now } := by
  simp only [markChapterCompleted, if_neg hid, hc, if_false]

/-- For a sorted list, the first entry is at most any entry. -/
theorem getD_zero_le_of_sorted (ts : List Nat) (hsorted : ts.Pairwise (· ≤ ·))
    (r : Nat) (hr : r < ts.length) : ts.getD 0 0 ≤ ts.getD r 0 := by
  rcases Nat.eq_zero_or_pos r with h0 | hpos
  · subst h0; exact le_refl _
  · have h0len : 0 < ts.length := lt_trans hpos hr
    rw [List.getD_eq_getElem ts 0 h0len, List.getD_eq_getElem ts 0 hr]
    exact List.pairwise_iff_get.mp hsorted ⟨0, h0len⟩ ⟨r, hr⟩ hpos

/-- C1: for every chapter list with non-decreasing offsets and every query
time `t`, the chapter resolution step returns the greatest index whose offset
is at most `t` (so ties on equal offsets go to the highest index), and
returns 0 when `t` is before the first offset. -/
theorem resolveChapter_spec (ts : List Nat) (t : ℚ)
    (hne : ts ≠ []) (hsorted : ts.Pairwise (· ≤ ·)) :
    resolveChapter ts t < ts.length ∧
    (∀ j, j < ts.length → ((ts.getD j 0 : Nat) : ℚ) ≤ t → j ≤ resolveChapter ts t) ∧
    ((∃ j, j < ts.length ∧ ((ts.getD j 0 : Nat) : ℚ) ≤ t) →
      ((ts.getD (resolveChapter ts t) 0 : Nat) : ℚ) ≤ t) ∧
    (t < ((ts.getD 0 0 : Nat) : ℚ) → resolveChapter ts t = 0) := by
  have hlen : 0 < ts.length := List.length_pos.mpr hne
  have hle : resolveChapter ts t ≤ ts.length - 1 := goResolve_le ts t (ts.length - 1)
  refine ⟨by omega, ?_, ?_, ?_⟩
  · intro j hj hcond
    exact goResolve_max ts t (ts.length - 1) j (by omega) hcond
  · rintro ⟨j, hj, hcond⟩
    rcases goResolve_hit ts t (ts.length - 1) with h0 | hok
    · have hjr : j ≤ resolveChapter ts t := goResolve_max ts t (ts.length - 1) j (by omega) hcond
      have hj0 : j = 0 := by
        have : resolveChapter ts t = 0 := h0
        omega
      have hr0 : resolveChapter ts t = 0 := h0
      rw [hr0]
      rw [hj0] at hcond
      exact hcond
    · exact hok
  · intro hbefore
    rcases goResolve_hit ts t (ts.length - 1) with h0 | hok
    · exact h0
    · exfalso
      have hrlen : resolveChapter ts t < ts.length := by omega
      have hmono : ts.getD 0 0 ≤ ts.getD (resolveChapter ts t) 0 :=
        getD_zero_le_of_sorted ts hsorted (resolveChapter ts t) hrlen
      have : ((ts.getD 0 0 : Nat) : ℚ) ≤ t := le_trans (Nat.cast_le.mpr hmono) hok
      exact absurd hbefore (not_lt.mpr this)

/-- Witness for C1 at the spec scenario: chapters at offsets `[0, 120, 300]`
and `t = 150` resolve to chapter 1. -/
theorem resolveChapter_spec_witness :
    ([0, 120, 300] : List Nat) ≠ [] ∧
    ([0, 120, 300] : List Nat).Pairwise (· ≤ ·) ∧
    resolveChapter [0, 120, 300] 150 = 1 ∧
    ((([0, 120, 300] : List Nat).getD (resolveChapter [0, 120, 300] 150) 0 : Nat) : ℚ) ≤ 150 :=
  ⟨by decide, by decide, by decide,
    (resolveChapter_spec [0, 120, 300] 150 (by decide) (by decide)).2.2.1
      ⟨1, by decide, by decide⟩⟩

/-- The toggle, with the ternary on prior membership kept as an `if`. -/
theorem markChapterCompleted_eq (ts : List Nat) (videoId : String)
    (idx now : Nat) (p : ProgressData) (hid : videoId ≠ "") :
    markChapterCompleted ts videoId idx now p =
      setProg p videoId
        { completedChapters :=
            if idx ∈ ((lookupProg p videoId).getD (defaultProgress now)).completedChapters
            then ((lookupProg p videoId).getD (defaultProgress now)).completedChapters.filter
                   (fun i => i ≠ idx)
            else ((lookupProg p videoId).getD (defaultProgress now)).completedChapters ++ [idx]
          lastWatchedChapter := (idx : Int)
          progressPercentage := jsRoundPct
            (if idx ∈ ((lookupProg p videoId).getD (defaultProgress now)).completedChapters
             then ((lookupProg p videoId).getD (defaultProgress now)).completedChapters.filter
                    (fun i => i ≠ idx)
             else ((lookupProg p videoId).getD (defaultProgress now)).completedChapters
                    ++ [idx]).length ts.length
          totalWatchTime := ((lookupProg p videoId).getD (defaultProgress now)).totalWatchTime
          timestamp := now } := by
  simp only [markChapterCompleted, if_neg hid]

/-- C2: a forward advance to resolved chapter `b` yields a record whose
completed set contains `{0, ..., b-1}`, keeps every previously completed
chapter, sets `lastWatchedChapter = b`, adds the 1-second sampling interval
to the watch time, recomputes the percentage from the new completed set, and
stamps the timestamp. -/
theorem trackProgress_forward_advance (ts : List Nat) (videoId : String) (t : ℚ)
    (now : Nat) (s : TrackState) (b : Nat)
    (hne : ts ≠ []) (hb : resolveChapter ts t = b) (hab : s.currentChapter < b) :
    ∃ r, lookupProg (trackProgress (some t) ts videoId now s).progress videoId = some r ∧
      (∀ j, j < b → j ∈ r.completedChapters) ∧
      (∀ x, x ∈ ((lookupProg s.progress videoId).getD (defaultProgress now)).completedChapters →
        x ∈ r.completedChapters) ∧
      r.lastWatchedChapter = (b : Int) ∧
      r.totalWatchTime =
        ((lookupProg s.progress videoId).getD (defaultProgress now)).totalWatchTime + 1 ∧
      r.progressPercentage = jsRoundPct r.completedChapters.length ts.length ∧
      r.timestamp = now := by
  have hlen : ts.length ≠ 0 := fun h => hne (List.eq_nil_of_length_eq_zero h)
  rw [trackProgress_advance_eq ts videoId t now s hlen (by omega), hb]
  refine ⟨_, lookupProg_setProg_self _ _ _, ?_, ?_, rfl, rfl, rfl, rfl⟩
  · intro j hj
    simp [mem_jsSetDedup, List.mem_append, List.mem_range, hj]
  · intro x hx
    simp [mem_jsSetDedup, List.mem_append, hx]

/-- Witness for C2 at the spec scenario: advancing from chapter 0 to the
chapter resolved at `t = 150` over offsets `[0, 120, 300]`. -/
theorem trackProgress_forward_advance_witness :
    ∃ r, lookupProg (trackProgress (some 150) [0, 120, 300] "v" 9
        { currentChapter := 0, progress := [] }).progress "v" = some r ∧
      (∀ j, j < 1 → j ∈ r.completedChapters) ∧
      (∀ x, x ∈ ((lookupProg [] "v").getD
          (defaultProgress 9)).completedChapters → x ∈ r.completedChapters) ∧
      r.lastWatchedChapter = (1 : Int) ∧
      r.totalWatchTime = ((lookupProg [] "v").getD (defaultProgress 9)).totalWatchTime + 1 ∧
      r.progressPercentage = jsRoundPct r.completedChapters.length [0, 120, 300].length ∧
      r.timestamp = 9 :=
  trackProgress_forward_advance [0, 120, 300] "v" 150 9
    { currentChapter := 0, progress := [] } 1 (by decide) (by decide) (by decide)

/-- Counterexample to C3 as stated: advancing into chapter 23 of a 40-chapter
course stores 23 completed chapters and percentage 57 — the double product
`(23 / 40) * 100` is just below `57.5` — while exact rounding of
`100 * 23 / 40` (round half up, `⌊(200·23 + 40) / (2·40)⌋`) gives 58. -/
theorem progressPercentage_float_cex :
    lookupProg (trackProgress (some 23) (List.range 40) "v" 0
      { currentChapter := 0, progress := [] }).progress "v" =
      some { completedChapters := List.range 23
             lastWatchedChapter := 23
             progressPercentage := JsNum.num 57
             totalWatchTime := 1
             timestamp := 0 } ∧
    (200 * (List.range 23).length + (List.range 40).length) /
      (2 * (List.range 40).length) = 58 := ⟨rfl, rfl⟩

/-- C3 amended: after a completion toggle and after a forward advance, the
stored `progressPercentage` equals `Math.round((len / count) * 100)` —
evaluated in IEEE-754 double precision — of that record's own completed-set
size and the chapter count used by the mutation: the percentage is always
recomputed from its inputs, never stale, but it is the double-precision
value, which at some inputs (such as 23 completed of 40) is one below the
exact rounding of `100 * len / count`. -/
theorem progressPercentage_recomputed_double (ts : List Nat) (videoId : String)
    (t : ℚ) (now : Nat) (s : TrackState) (idx : Nat) (p : ProgressData)
    (hid : videoId ≠ "") (hne : ts ≠ []) (hadv : s.currentChapter < resolveChapter ts t) :
    (∃ r, lookupProg (markChapterCompleted ts videoId idx now p) videoId = some r ∧
      r.progressPercentage = jsRoundPct r.completedChapters.length ts.length) ∧
    (∃ r, lookupProg (trackProgress (some t) ts videoId now s).progress videoId = some r ∧
      r.progressPercentage = jsRoundPct r.completedChapters.length ts.length) := by
  have hlen : ts.length ≠ 0 := fun h => hne (List.eq_nil_of_length_eq_zero h)
  constructor
  · rw [markChapterCompleted_eq ts videoId idx now p hid]
    exact ⟨_, lookupProg_setProg_self _ _ _, rfl⟩
  · rw [trackProgress_advance_eq ts videoId t now s hlen hadv]
    exact ⟨_, lookupProg_setProg_self _ _ _, rfl⟩

/-- Witness for C3 amended at the spec scenarios: toggling chapter 2 of a
3-chapter course and advancing from chapter 0 at `t = 150` both store
`jsRoundPct 1 3` (= 33). -/
theorem progressPercentage_recomputed_double_witness :
    (∃ r, lookupProg (markChapterCompleted [0, 120, 300] "v" 2 5 []) "v" = some r ∧
      r.progressPercentage = jsRoundPct r.completedChapters.length [0, 120, 300].length) ∧
    (∃ r, lookupProg (trackProgress (some 150) [0, 120, 300] "v" 5
        { currentChapter := 0, progress := [] }).progress "v" = some r ∧
      r.progressPercentage = jsRoundPct r.completedChapters.length [0, 120, 300].length) :=
  progressPercentage_recomputed_double [0, 120, 300] "v" 150 5
    { currentChapter := 0, progress := [] } 2 [] (by decide) (by decide) (by decide)

/-- C7: when the resolved chapter is strictly below the recorded current
chapter (backward movement), the sample updates only the visible current
chapter; the progress store is left entirely unchanged. -/
theorem trackProgress_backward_frame (ts : List Nat) (videoId : String) (t : ℚ)
    (now : Nat) (s : TrackState)
    (hne : ts ≠ []) (hlt : resolveChapter ts t < s.currentChapter) :
    (trackProgress (some t) ts videoId now s).progress = s.progress ∧
    (trackProgress (some t) ts videoId now s).currentChapter = resolveChapter ts t := by
  have hlen : ts.length ≠ 0 := fun h => hne (List.eq_nil_of_length_eq_zero h)
  rw [trackProgress_backward_eq ts videoId t now s hlen hlt]
  exact ⟨rfl, rfl⟩

/-- Witness for C7: a backward seek to `t = 10` from current chapter 2 leaves
the store untouched and moves the visible chapter to 0. -/
theorem trackProgress_backward_frame_witness :
    (trackProgress (some 10) [0, 120, 300] "v" 9
      { currentChapter := 2
        progress := [("v", defaultProgress 3)] }).progress =
      ({ currentChapter := 2
         progress := [("v", defaultProgress 3)] } : TrackState).progress ∧
    (trackProgress (some 10) [0, 120, 300] "v" 9
      { currentChapter := 2
        progress := [("v", defaultProgress 3)] }).currentChapter =
      resolveChapter [0, 120, 300] 10 :=
  trackProgress_backward_frame [0, 120, 300] "v" 10 9
    { currentChapter := 2, progress := [("v", defaultProgress 3)] }
    (by decide) (by decide)

/-- C6: each toggle flips membership of the index, sets `lastWatchedChapter`
to it, recomputes the percentage and stamps the timestamp; toggling the same
index twice returns `completedChapters` to its prior set (membership-wise)
while the timestamp advances to the second mutation's time. -/
theorem markChapterCompleted_double_toggle (ts : List Nat) (videoId : String)
    (idx t1 t2 : Nat) (p : ProgressData) (hid : videoId ≠ "") :
    (∃ r1, lookupProg (markChapterCompleted ts videoId idx t1 p) videoId = some r1 ∧
      (idx ∈ r1.completedChapters ↔
        idx ∉ ((lookupProg p videoId).getD (defaultProgress t1)).completedChapters) ∧
      (∀ x, x ≠ idx → (x ∈ r1.completedChapters ↔
        x ∈ ((lookupProg p videoId).getD (defaultProgress t1)).completedChapters)) ∧
      r1.lastWatchedChapter = (idx : Int) ∧
      r1.progressPercentage = jsRoundPct r1.completedChapters.length ts.length ∧
      r1.timestamp = t1) ∧
    (∃ r2, lookupProg (markChapterCompleted ts videoId idx t2
        (markChapterCompleted ts videoId idx t1 p)) videoId = some r2 ∧
      (∀ x, x ∈ r2.completedChapters ↔
        x ∈ ((lookupProg p videoId).getD (defaultProgress t1)).completedChapters) ∧
      r2.timestamp = t2) := by
  rw [markChapterCompleted_eq ts videoId idx t1 p hid,
    markChapterCompleted_eq ts videoId idx t2 _ hid]
  simp only [lookupProg_setProg_self, Option.getD_some]
  refine ⟨⟨_, rfl, ?_, ?_, rfl, rfl, rfl⟩, ⟨_, rfl, ?_, rfl⟩⟩
  · by_cases hc : idx ∈ ((lookupProg p videoId).getD (defaultProgress t1)).completedChapters
    · simp [hc, List.mem_filter]
    · simp [hc]
  · intro x hx
    by_cases hc : idx ∈ ((lookupProg p videoId).getD (defaultProgress t1)).completedChapters
    · simp [hc, List.mem_filter, hx]
    · simp [hc, hx]
  · intro x
    by_cases hc : idx ∈ ((lookupProg p videoId).getD (defaultProgress t1)).completedChapters
    · by_cases hx : x = idx
      · subst hx; simp [hc, List.mem_filter]
      · simp [hc, hx, List.mem_filter]
    · by_cases hx : x = idx
      · subst hx; simp [hc, List.mem_filter]
      · simp [hc, hx, List.mem_filter]

/-- Witness for C6 at the spec scenario: toggling chapter 2 of a 3-chapter
course on an empty store, then toggling it again. -/
theorem markChapterCompleted_double_toggle_witness :
    (∃ r1, lookupProg (markChapterCompleted [0, 120, 300] "v" 2 5 []) "v" = some r1 ∧
      (2 ∈ r1.completedChapters ↔
        2 ∉ ((lookupProg [] "v").getD (defaultProgress 5)).completedChapters) ∧
      (∀ x, x ≠ 2 → (x ∈ r1.completedChapters ↔
        x ∈ ((lookupProg [] "v").getD (defaultProgress 5)).completedChapters)) ∧
      r1.lastWatchedChapter = (2 : Int) ∧
      r1.progressPercentage = jsRoundPct r1.completedChapters.length [0, 120, 300].length ∧
      r1.timestamp = 5) ∧
    (∃ r2, lookupProg (markChapterCompleted [0, 120, 300] "v" 2 6
        (markChapterCompleted [0, 120, 300] "v" 2 5 [])) "v" = some r2 ∧
      (∀ x, x ∈ r2.completedChapters ↔
        x ∈ ((lookupProg [] "v").getD (defaultProgress 5)).completedChapters) ∧
      r2.timestamp = 6) :=
  markChapterCompleted_double_toggle [0, 120, 300] "v" 2 5 6 [] (by decide)

/-- C10: a sample and a toggle for `videoId` leave every other video id's
record unchanged, and the toggle leaves `videoId`'s accumulated watch time
unchanged. -/
theorem mutation_frame (ts : List Nat) (videoId id2 : String) (t : ℚ)
    (now : Nat) (s : TrackState) (idx : Nat) (p : ProgressData)
    (h2 : id2 ≠ videoId) (hid : videoId ≠ "") :
    lookupProg (trackProgress (some t) ts videoId now s).progress id2 =
      lookupProg s.progress id2 ∧
    lookupProg (markChapterCompleted ts videoId idx now p) id2 = lookupProg p id2 ∧
    (∃ r, lookupProg (markChapterCompleted ts videoId idx now p) videoId = some r ∧
      r.totalWatchTime =
        ((lookupProg p videoId).getD (defaultProgress now)).totalWatchTime) := by
  refine ⟨?_, ?_, ?_⟩
  · by_cases hlen : ts.length = 0
    · simp [trackProgress, hlen]
    · by_cases he : resolveChapter ts t = s.currentChapter
      · simp [trackProgress, hlen, he]
      · by_cases hadv : s.currentChapter < resolveChapter ts t
        · rw [trackProgress_advance_eq ts videoId t now s hlen hadv]
          exact lookupProg_setProg_ne _ _ _ _ h2
        · rw [trackProgress_backward_eq ts videoId t now s hlen (by omega)]
  · rw [markChapterCompleted_eq ts videoId idx now p hid]
    exact lookupProg_setProg_ne _ _ _ _ h2
  · rw [markChapterCompleted_eq ts videoId idx now p hid]
    exact ⟨_, lookupProg_setProg_self _ _ _, rfl⟩

/-- Witness for C10: mutations for `"v"` do not touch `"w"`, and the toggle
keeps the watch time. -/
theorem mutation_frame_witness :
    lookupProg (trackProgress (some 150) [0, 120, 300] "v" 9
      { currentChapter := 0, progress := [] }).progress "w" =
      lookupProg ({ currentChapter := 0, progress := [] } : TrackState).progress "w" ∧
    lookupProg (markChapterCompleted [0, 120, 300] "v" 2 9 []) "w" = lookupProg [] "w" ∧
    (∃ r, lookupProg (markChapterCompleted [0, 120, 300] "v" 2 9 []) "v" = some r ∧
      r.totalWatchTime = ((lookupProg [] "v").getD (defaultProgress 9)).totalWatchTime) :=
  mutation_frame [0, 120, 300] "v" "w" 150 9
    { currentChapter := 0, progress := [] } 2 [] (by decide) (by decide)

/-- Counterexample to C9 as stated: with 3 chapters, toggling chapter index 5
stores completed set `[5]`, outside `{0, 1, 2}`. -/
theorem markChapterCompleted_out_of_range_cex :
    Option.map VideoProgress.completedChapters
      (lookupProg (markChapterCompleted [0, 120, 300] "v" 5 0 []) "v") = some [5] ∧
    ([0, 120, 300] : List Nat).length = 3 := ⟨rfl, rfl⟩

/-- C9 amended: a forward advance always keeps `completedChapters ⊆
{0 .. chapterCount-1}` (the resolved index is in range); the toggle keeps it
only when its index argument is itself in range — the source inserts the
argument without a bounds check. -/
theorem completedChapters_bounded (ts : List Nat) (videoId : String) (t : ℚ)
    (now : Nat) (s : TrackState) (idx : Nat) (p : ProgressData)
    (hne : ts ≠ []) (hadv : s.currentChapter < resolveChapter ts t)
    (hprev1 : ∀ x ∈ ((lookupProg s.progress videoId).getD
      (defaultProgress now)).completedChapters, x < ts.length)
    (hid : videoId ≠ "") (hidx : idx < ts.length)
    (hprev2 : ∀ x ∈ ((lookupProg p videoId).getD
      (defaultProgress now)).completedChapters, x < ts.length) :
    (∃ r, lookupProg (trackProgress (some t) ts videoId now s).progress videoId = some r ∧
      ∀ x ∈ r.completedChapters, x < ts.length) ∧
    (∃ r, lookupProg (markChapterCompleted ts videoId idx now p) videoId = some r ∧
      ∀ x ∈ r.completedChapters, x < ts.length) := by
  have hlen : ts.length ≠ 0 := fun h => hne (List.eq_nil_of_length_eq_zero h)
  constructor
  · rw [trackProgress_advance_eq ts videoId t now s hlen hadv]
    refine ⟨_, lookupProg_setProg_self _ _ _, ?_⟩
    intro x hx
    rw [mem_jsSetDedup] at hx
    rcases List.mem_append.mp hx with h | h
    · exact hprev1 x h
    · have hb : resolveChapter ts t ≤ ts.length - 1 := goResolve_le ts t (ts.length - 1)
      have hxb := List.mem_range.mp h
      omega
  · rw [markChapterCompleted_eq ts videoId idx now p hid]
    refine ⟨_, lookupProg_setProg_self _ _ _, ?_⟩
    intro x hx
    by_cases hc : idx ∈ ((lookupProg p videoId).getD
        (defaultProgress now)).completedChapters
    · rw [if_pos hc] at hx
      exact hprev2 x (List.mem_filter.mp hx).1
    · rw [if_neg hc] at hx
      rcases List.mem_append.mp hx with h | h
      · exact hprev2 x h
      · rw [List.mem_singleton] at h
        omega

/-- Witness for C9 amended: in-range operations on the empty store over a
3-chapter list stay in range. -/
theorem completedChapters_bounded_witness :
    (∃ r, lookupProg (trackProgress (some 150) [0, 120, 300] "v" 9
        { currentChapter := 0, progress := [] }).progress "v" = some r ∧
      ∀ x ∈ r.completedChapters, x < [0, 120, 300].length) ∧
    (∃ r, lookupProg (markChapterCompleted [0, 120, 300] "v" 2 9 []) "v" = some r ∧
      ∀ x ∈ r.completedChapters, x < [0, 120, 300].length) :=
  completedChapters_bounded [0, 120, 300] "v" 150 9
    { currentChapter := 0, progress := [] } 2 []
    (by decide) (by decide) (by decide) (by decide) (by decide) (by decide)

/-- Counterexample to C5 as stated: with chapter count 0, the toggle stores
`Infinity` (JS `1 / 0` scaled and rounded), not 0. -/
theorem markChapterCompleted_zero_count_cex :
    Option.map VideoProgress.progressPercentage
      (lookupProg (markChapterCompleted [] "v" 0 7 []) "v") = some JsNum.inf := rfl

/-- C5 amended: with chapter count 0 the sampling advance performs no
mutation at all (the `chapters.length === 0` guard), but the toggle still
mutates and stores a non-finite percentage — `NaN` when the new completed set
is empty, `Infinity` otherwise — rather than 0. -/
theorem zero_chapterCount_behavior (pl : Option ℚ) (videoId : String)
    (idx now : Nat) (s : TrackState) (p : ProgressData) (hid : videoId ≠ "") :
    trackProgress pl [] videoId now s = s ∧
    (∃ r, lookupProg (markChapterCompleted [] videoId idx now p) videoId = some r ∧
      (r.progressPercentage = JsNum.nan ∨ r.progressPercentage = JsNum.inf)) := by
  have hnanInf : ∀ n : Nat, jsRoundPct n 0 = JsNum.nan ∨ jsRoundPct n 0 = JsNum.inf := by
    intro n
    by_cases hn : n = 0
    · left; simp [jsRoundPct, hn]
    · right; simp [jsRoundPct, hn]
  constructor
  · cases pl with
    | none => rfl
    | some t => rfl
  · rw [markChapterCompleted_eq [] videoId idx now p hid]
    exact ⟨_, lookupProg_setProg_self _ _ _, hnanInf _⟩

/-- Witness for C5 amended: on 0 chapters, a sample is a no-op and a toggle
stores a non-finite percentage. -/
theorem zero_chapterCount_behavior_witness :
    trackProgress (some 3) [] "v" 7 { currentChapter := 0, progress := [] } =
      { currentChapter := 0, progress := [] } ∧
    (∃ r, lookupProg (markChapterCompleted [] "v" 0 7 []) "v" = some r ∧
      (r.progressPercentage = JsNum.nan ∨ r.progressPercentage = JsNum.inf)) :=
  zero_chapterCount_behavior (some 3) "v" 0 7
    { currentChapter := 0, progress := [] } [] (by decide)

/-- Counterexample to C8 as stated: reading an id with no stored record
yields `null` (`none`), not a default `VideoProgress` record. -/
theorem getVideoProgress_unknown_cex : getVideoProgress "abc" [] = none := rfl

/-- C8 amended: reading an unknown id yields `null` without an error, and
every mutation on an unknown id starts from the default record
(`completedChapters = []`, `lastWatchedChapter = -1`, percentage 0, watch
time 0): the toggle then stores exactly `[idx]` with watch time 0, and a
forward advance stores exactly the chapters below the resolved index with
watch time 1. -/
theorem unknown_videoId_defaults (ts : List Nat) (videoId : String) (t : ℚ)
    (idx now : Nat) (s : TrackState) (p : ProgressData)
    (hid : videoId ≠ "") (hunk1 : lookupProg p videoId = none)
    (hunk2 : lookupProg s.progress videoId = none)
    (hne : ts ≠ []) (hadv : s.currentChapter < resolveChapter ts t) :
    getVideoProgress videoId p = none ∧
    lookupProg (markChapterCompleted ts videoId idx now p) videoId =
      some { completedChapters := [idx]
             lastWatchedChapter := (idx : Int)
             progressPercentage := jsRoundPct 1 ts.length
             totalWatchTime := 0
             timestamp := now } ∧
    lookupProg (trackProgress (some t) ts videoId now s).progress videoId =
      some { completedChapters := jsSetDedup (List.range (resolveChapter ts t))
             lastWatchedChapter := (resolveChapter ts t : Int)
             progressPercentage :=
               jsRoundPct (jsSetDedup (List.range (resolveChapter ts t))).length ts.length
             totalWatchTime := 1
             timestamp := now } := by
  have hlen : ts.length ≠ 0 := fun h => hne (List.eq_nil_of_length_eq_zero h)
  refine ⟨?_, ?_, ?_⟩
  · simp [getVideoProgress, hid, hunk1]
  · rw [markChapterCompleted_eq ts videoId idx now p hid, lookupProg_setProg_self]
    simp [hunk1, defaultProgress]
  · rw [trackProgress_advance_eq ts videoId t now s hlen hadv, lookupProg_setProg_self]
    simp [hunk2, defaultProgress]

/-- Witness for C8 amended: concrete unknown-id read, toggle and advance. -/
theorem unknown_videoId_defaults_witness :
    getVideoProgress "v" [] = none ∧
    lookupProg (markChapterCompleted [0, 120, 300] "v" 2 4 []) "v" =
      some { completedChapters := [2]
             lastWatchedChapter := (2 : Int)
             progressPercentage := jsRoundPct 1 [0, 120, 300].length
             totalWatchTime := 0
             timestamp := 4 } ∧
    lookupProg (trackProgress (some 150) [0, 120, 300] "v" 4
      { currentChapter := 0, progress := [] }).progress "v" =
      some { completedChapters := jsSetDedup (List.range (resolveChapter [0, 120, 300] 150))
             lastWatchedChapter := (resolveChapter [0, 120, 300] 150 : Int)
             progressPercentage := jsRoundPct
               (jsSetDedup (List.range (resolveChapter [0, 120, 300] 150))).length
               [0, 120, 300].length
             totalWatchTime := 1
             timestamp := 4 } :=
  unknown_videoId_defaults [0, 120, 300] "v" 150 2 4
    { currentChapter := 0, progress := [] } []
    (by decide) rfl rfl (by decide) (by decide)

/-- Counterexample to C4 as stated: loading the corrupt durable value
`"{not json"` surfaces the parse error instead of an empty mapping. -/
theorem loadSavedProgress_corrupt_cex :
    loadSavedProgress (some "\x7bnot json") = Except.error "SyntaxError" := rfl

/-- C4 amended: the load step returns the empty mapping when the durable
value is absent (or the falsy empty string), but on content `JSON.parse`
rejects, the parse error propagates to the caller — there is no `try`/`catch`,
so malformed content does not fail soft. -/
theorem loadSavedProgress_error_propagates :
    loadSavedProgress none = Except.ok (Json.jobj []) ∧
    (∀ s : String, s ≠ "" → jsonParse s = none →
      loadSavedProgress (some s) = Except.error "SyntaxError") := by
  refine ⟨rfl, ?_⟩
  intro s hs hp
  simp [loadSavedProgress, hs, hp]

/-- Witness for C4 amended at the spec's corrupt value `"{not json"`. -/
theorem loadSavedProgress_error_propagates_witness :
    loadSavedProgress none = Except.ok (Json.jobj []) ∧
    loadSavedProgress (some "\x7bnot json") = Except.error "SyntaxError" :=
  ⟨loadSavedProgress_error_propagates.1,
    loadSavedProgress_error_propagates.2 "\x7bnot json" (by decide) rfl⟩

end CourseMaker
